import Mathlib

/-!
Verification development for the ace-skyspark-lib SkySpark client.

The definitions below are a shallow embedding of the Python sources:
strings are modelled as Lean strings or lists of characters, Python
dictionaries as insertion-ordered association lists, exceptions as
Except values, and the HTTP transport as an explicit oracle function.
Each definition is translated from the corresponding function in the
repository (file and function named in its doc comment).
-/

namespace AceSkyspark

/-! ## Zinc string escaping (formats/zinc.py, function escape_zinc_string) -/

/-- Python single-character str.replace: every occurrence of the
character a is replaced by the character list r. -/
def replaceChar (a : Char) (r : List Char) (s : List Char) : List Char :=
  s.flatMap (fun c => if c = a then r else [c])

/-- Predicate of the final control-character filter in the escaper:
keep a character when its code point is at least 32, or it is tab,
newline or carriage return. -/
def zincKeep (c : Char) : Bool :=
  32 ≤ c.toNat || c = '\t' || c = '\n' || c = '\r'

/-- Model of escape_zinc_string from formats/zinc.py, over the list of
characters of the input string: escape backslash first, then quote,
newline, carriage return and tab; delete NUL bytes; finally delete the
remaining control characters below code point 32 other than tab,
newline and carriage return. -/
def escape_zinc_string (s : List Char) : List Char :=
  List.filter zincKeep
    (replaceChar (Char.ofNat 0) []
      (replaceChar '\t' ['\\', 't']
        (replaceChar '\r' ['\\', 'r']
          (replaceChar '\n' ['\\', 'n']
            (replaceChar '"' ['\\', '"']
              (replaceChar '\\' ['\\', '\\'] s))))))

/-- String-level wrapper of the escaper. -/
def escapeStr (s : String) : String :=
  String.mk (escape_zinc_string s.data)

/-- Character denoted by an escape sequence: backslash n, r, t decode
to newline, carriage return, tab; a backslash before any other
character decodes to that character. -/
def decodeEsc (d : Char) : Char :=
  if d = 'n' then '\n' else if d = 'r' then '\r' else if d = 't' then '\t' else d

/-- Reversal of the escape sequences of the Zinc escaper: a backslash
and its following character decode through decodeEsc, and every
unescaped character stands for itself. -/
def unescapeZinc : List Char → List Char
  | [] => []
  | [c] => [c]
  | c :: d :: rest =>
    if c = '\\' then decodeEsc d :: unescapeZinc rest
    else c :: unescapeZinc (d :: rest)

/-! ## Python values and single-value encoding (formats/zinc.py, ZincEncoder) -/

/-- Shallow model of the Python values that reach the Zinc encoder:
strings, booleans, ints, floats (carried by their str() text), aware or
naive datetimes (isoformat text plus zone name when aware), and any
other object (carried by its str() text). -/
inductive PyVal where
  | str : String → PyVal
  | bool : Bool → PyVal
  | int : Int → PyVal
  | float : String → PyVal
  | datetime : String → Option String → PyVal
  | other : String → PyVal
deriving DecidableEq, Repr

/-- Python str.startswith with the one-character ref sigil: true when
the first character of the string is the at sign. -/
def startsWithAt (s : String) : Bool :=
  match s.data with
  | [] => false
  | c :: _ => c = '@'

/-- Model of ZincEncoder encode_value: empty string to empty cell,
marker sentinel to M, ref strings passed through, other strings quoted
and escaped, booleans to T or F, numbers to their decimal text, zoned
datetimes to iso text, a space, and the zone name (UTC when naive), and
any other value stringified, escaped and quoted. -/
def encode_value : PyVal → String
  | .str s =>
      if s = "" then ""
      else if s = "m:" then "M"
      else if startsWithAt s then s
      else "\"" ++ escapeStr s ++ "\""
  | .bool b => if b then "T" else "F"
  | .int n => toString n
  | .float r => r
  | .datetime iso tz => iso ++ " " ++ tz.getD "UTC"
  | .other r => "\"" ++ escapeStr r ++ "\""

/-! ## Insertion-ordered dictionaries (model of Python dict) -/

/-- Python dict assignment d[k] = v: an existing key keeps its
position and gets the new value, a new key is appended at the end. -/
def dictSet (d : List (String × PyVal)) (k : String) (v : PyVal) : List (String × PyVal) :=
  if d.any (fun kv => kv.1 = k) then d.map (fun kv => if kv.1 = k then (k, v) else kv)
  else d ++ [(k, v)]

/-- Python dict.update(u): assign every pair of u in order. -/
def dictUpdate (d : List (String × PyVal)) (u : List (String × PyVal)) : List (String × PyVal) :=
  u.foldl (fun acc kv => dictSet acc kv.1 kv.2) d

/-- Python dict.get(k, dflt). -/
def dictGet (d : List (String × PyVal)) (k : String) (dflt : PyVal) : PyVal :=
  match d.find? (fun kv => kv.1 = k) with
  | some kv => kv.2
  | none => dflt

/-- Keys of the dictionary, in insertion order. -/
def dictKeys (d : List (String × PyVal)) : List String := d.map Prod.fst

/-- Python truthiness of an optional string: None and the empty string
are falsy. -/
def optStrTruthy : Option String → Bool
  | none => false
  | some s => s ≠ ""

/-- Python truthiness of an optional float carried by its str() text:
None, 0.0 and -0.0 are falsy. -/
def optFloatTruthy : Option String → Bool
  | none => false
  | some r => r ≠ "0.0" && r ≠ "-0.0"

/-- Python truthiness of an optional int: None and 0 are falsy. -/
def optIntTruthy : Option Int → Bool
  | none => false
  | some n => n ≠ 0

/-! ## Entity models (models/entities.py) -/

/-- Model of the Site entity: the fields read by serialize_to_zinc. -/
structure Site where
  id : Option String
  dis : String
  ref_name : String
  tz : String
  geo_addr : Option String
  area : Option String
  year_built : Option Int
  tags : List (String × PyVal)
deriving DecidableEq, Repr

/-- Model of Site.serialize_to_zinc / Site.to_zinc_dict. -/
def Site.to_zinc_dict (s : Site) : List (String × PyVal) :=
  let d0 : List (String × PyVal) :=
    [("dis", .str s.dis), ("refName", .str s.ref_name), ("tz", .str s.tz), ("site", .str "m:")]
  let d1 := if optStrTruthy s.id then dictSet d0 "id" (.str ("@" ++ s.id.getD "")) else d0
  let d2 := if optStrTruthy s.geo_addr then dictSet d1 "geoAddr" (.str (s.geo_addr.getD "")) else d1
  let d3 := if optFloatTruthy s.area then dictSet d2 "area" (.float (s.area.getD "")) else d2
  let d4 := if optIntTruthy s.year_built then dictSet d3 "yearBuilt" (.int (s.year_built.getD 0)) else d3
  dictUpdate d4 s.tags

/-- Model of the Equipment entity: the fields read by serialize_to_zinc. -/
structure Equipment where
  id : Option String
  dis : String
  ref_name : String
  site_ref : String
  equip_ref : Option String
  tz : String
  tags : List (String × PyVal)
deriving DecidableEq, Repr

/-- Model of Equipment.serialize_to_zinc / Equipment.to_zinc_dict. -/
def Equipment.to_zinc_dict (e : Equipment) : List (String × PyVal) :=
  let d0 : List (String × PyVal) :=
    [("dis", .str e.dis), ("refName", .str e.ref_name), ("siteRef", .str ("@" ++ e.site_ref)),
     ("tz", .str e.tz), ("equip", .str "m:")]
  let d1 := if optStrTruthy e.id then dictSet d0 "id" (.str ("@" ++ e.id.getD "")) else d0
  let d2 := if optStrTruthy e.equip_ref then dictSet d1 "equipRef" (.str ("@" ++ e.equip_ref.getD "")) else d1
  dictUpdate d2 e.tags

/-- Model of the Point entity: the fields read by serialize_to_zinc. -/
structure Point where
  id : Option String
  dis : String
  ref_name : String
  site_ref : String
  equip_ref : String
  kind : String
  tz : String
  unit : Option String
  his : Bool
  cur : Bool
  writable : Bool
  marker_tags : List String
  kv_tags : List (String × PyVal)
deriving DecidableEq, Repr

/-- Model of Point.serialize_to_zinc / Point.to_zinc_dict. -/
def Point.to_zinc_dict (p : Point) : List (String × PyVal) :=
  let d0 : List (String × PyVal) := []
  let d1 := if optStrTruthy p.id then dictSet d0 "id" (.str ("@" ++ p.id.getD "")) else d0
  let d2 := dictSet d1 "dis" (.str p.dis)
  let d3 := dictSet d2 "refName" (.str p.ref_name)
  let d4 := dictSet d3 "siteRef" (.str ("@" ++ p.site_ref))
  let d5 := dictSet d4 "equipRef" (.str ("@" ++ p.equip_ref))
  let d6 := dictSet d5 "kind" (.str p.kind)
  let d7 := dictSet d6 "tz" (.str p.tz)
  let d8 := if optStrTruthy p.unit then dictSet d7 "unit" (.str (p.unit.getD "")) else d7
  let d9 := dictSet d8 "point" (.str "m:")
  let d10 := if p.his then dictSet d9 "his" (.str "m:") else d9
  let d11 := if p.cur then dictSet d10 "cur" (.str "m:") else d10
  let d12 := if p.writable then dictSet d11 "writable" (.str "m:") else d11
  let d13 := p.marker_tags.foldl (fun acc t => dictSet acc t (.str "m:")) d12
  dictUpdate d13 p.kv_tags

/-! ## Grid encoders (formats/zinc.py, ZincEncoder) -/

/-- Model of the tag-set construction of the grid encoders: union of
the fixed tags for the entity kind with every key of every record
dictionary, with id discarded for add operations, sorted
lexicographically (Python sorted over a set: the distinct tags in
nondecreasing string order). -/
def sortedTagSet (fixed : List String) (dicts : List (List (String × PyVal))) (dropId : Bool) :
    List String :=
  let all := fixed ++ dicts.flatMap dictKeys
  let all := if dropId then all.filter (fun t => t ≠ "id") else all
  List.insertionSort (fun a b : String => a ≤ b) all.dedup

/-- Model of one data row: for each header tag, the encoded value of
the dictionary at that tag (empty-string default), joined by comma
space. -/
def encodeRow (tags : List String) (d : List (String × PyVal)) : String :=
  String.intercalate ", " (tags.map (fun t => encode_value (dictGet d t (.str ""))))

/-- Model of ZincEncoder.encode_commit_add_sites. -/
def encode_commit_add_sites (sites : List Site) : String :=
  if sites.isEmpty then ""
  else
    let dicts := sites.map Site.to_zinc_dict
    let tags := sortedTagSet ["dis", "tz", "refName", "site"] dicts true
    "ver:\"3.0\" commit:\"add\"\n" ++ String.intercalate ", " tags ++ "\n" ++
      String.join (dicts.map (fun d => encodeRow tags d ++ "\n"))

/-- Model of ZincEncoder.encode_commit_add_equipment. -/
def encode_commit_add_equipment (equipment : List Equipment) : String :=
  if equipment.isEmpty then ""
  else
    let dicts := equipment.map Equipment.to_zinc_dict
    let tags := sortedTagSet ["dis", "siteRef", "tz", "refName", "equip"] dicts true
    "ver:\"3.0\" commit:\"add\"\n" ++ String.intercalate ", " tags ++ "\n" ++
      String.join (dicts.map (fun d => encodeRow tags d ++ "\n"))

/-- Model of ZincEncoder.encode_commit_add_points. -/
def encode_commit_add_points (points : List Point) : String :=
  if points.isEmpty then ""
  else
    let dicts := points.map Point.to_zinc_dict
    let tags := sortedTagSet ["dis", "siteRef", "equipRef", "kind", "tz", "refName", "point"] dicts true
    "ver:\"3.0\" commit:\"add\"\n" ++ String.intercalate ", " tags ++ "\n" ++
      String.join (dicts.map (fun d => encodeRow tags d ++ "\n"))

/-- Header tag list used by encode_commit_update_points: the fixed
update tags (id included) unioned with all record keys, sorted. -/
def updateTagSet (points : List Point) : List String :=
  sortedTagSet ["id", "dis", "siteRef", "equipRef", "kind", "tz", "refName", "point"]
    (points.map Point.to_zinc_dict) false

/-- Model of one row of the update grid: a point without a truthy id
raises ValueError (Python if not point.id), otherwise its row is
encoded from its dictionary. -/
def update_row (tags : List String) (p : Point) : Except String String :=
  if optStrTruthy p.id then .ok (encodeRow tags p.to_zinc_dict)
  else .error ("Point " ++ p.dis ++ " must have an ID for update operations")

/-- Model of ZincEncoder.encode_commit_update_points: a point without
an id raises ValueError at the first offending row (modelled as
Except.error, no grid value escapes the function); otherwise the grid
holds one data row per point. -/
def encode_commit_update_points (points : List Point) : Except String String :=
  if points.isEmpty then .ok ""
  else
    let tags := updateTagSet points
    (points.mapM (update_row tags)).map
      (fun rows =>
        "ver:\"3.0\" commit:\"update\"\n" ++ String.intercalate ", " tags ++ "\n" ++
          String.join (rows.map (fun r => r ++ "\n")))

/-! ## History samples and RPC history-write encoding -/

/-- Model of the sample value union float-or-bool-or-str of
HistorySample (models/history.py); floats carried by their str()
text. -/
inductive SampleVal where
  | bool : Bool → SampleVal
  | str : String → SampleVal
  | float : String → SampleVal
deriving DecidableEq, Repr

/-- Model of HistorySample (models/history.py). The Python timestamp
is one aware datetime value; the model splits it into an ordering key
(timestamp, used by sorting and chunking), its isoformat text (ts_iso)
and its zone name (ts_tz, None for a naive value). -/
structure HistorySample where
  point_id : String
  timestamp : Nat
  ts_iso : String
  ts_tz : Option String
  value : SampleVal
deriving DecidableEq, Repr

/-- Model of ZincEncoder.encode_his_write_rpc: one hisWrite expression
row per sample, string values escaped and quoted, booleans lowered to
true/false, the zone name defaulting to UTC for a naive timestamp. -/
def encode_his_write_rpc (samples : List HistorySample) : String :=
  if samples.isEmpty then ""
  else
    "ver:\"3.0\"\n" ++ "expr\n" ++
      String.join (samples.map (fun s =>
        let tz_name := s.ts_tz.getD "UTC"
        let val_str :=
          match s.value with
          | .bool b => if b then "true" else "false"
          | .str v => "\"" ++ escapeStr v ++ "\""
          | .float r => r
        "\"hisWrite(" ++ "\x7bts: parseDateTime(\\\"" ++ s.ts_iso ++
          "\\\", \\\"YYYY-MM-DDThh:mm:ssz\\\", \\\"" ++ tz_name ++ "\\\"), " ++
          "val: " ++ val_str ++ "\x7d, " ++ "@" ++ s.point_id ++ ")\"\n"))

/-! ## History write pipeline (operations/history_ops.py) -/

/-- Model of HistoryWriteResult (models/history.py): success flag,
samples written, optional error text. -/
structure HistoryWriteResult where
  success : Bool
  samplesWritten : Nat
  error : Option String
deriving DecidableEq, Repr

/-- Comparison key of the per-point chronological sort: nondecreasing
timestamp. -/
def tsLe (a b : HistorySample) : Prop := a.timestamp ≤ b.timestamp

instance : DecidableRel tsLe := fun a b => Nat.decLe a.timestamp b.timestamp

instance : IsTotal HistorySample tsLe := ⟨fun a b => Nat.le_total a.timestamp b.timestamp⟩

instance : IsTrans HistorySample tsLe := ⟨fun _ _ _ h1 h2 => Nat.le_trans h1 h2⟩

/-- Point identifiers in order of first occurrence: the iteration
order of the Python dict by_point built by write_samples_chunked. -/
def pointKeys : List HistorySample → List String
  | [] => []
  | s :: rest => s.point_id :: (pointKeys rest).filter (fun k => k ≠ s.point_id)

/-- The grouping and sorting stage of write_samples_chunked: group the
samples by point id (dict insertion order), sort each group by
timestamp (Python stable sort, modelled by insertion sort), and
flatten the groups back into one list. -/
def sortSamples (samples : List HistorySample) : List HistorySample :=
  (pointKeys samples).flatMap
    (fun p => List.insertionSort tsLe (samples.filter (fun s => s.point_id == p)))

/-- Fuel-bounded worker of the chunk splitter; the fuel starts at the
list length, which bounds the number of chunks. -/
def chunkListAux (n : Nat) : Nat → List α → List (List α)
  | 0, _ => []
  | _ + 1, [] => []
  | fuel + 1, x :: xs => ((x :: xs).take n) :: chunkListAux n fuel ((x :: xs).drop n)

/-- Model of HistoryOperations.chunk_list: successive slices of size n
(the last chunk may be short). Python islice with size 0 yields an
empty first chunk, which ends the while loop at once, so chunk size 0
produces no chunks at all. -/
def chunkList (n : Nat) (l : List α) : List (List α) :=
  if n = 0 then [] else chunkListAux n l.length l

/-- Model of HistoryOperations.write_samples with the transport
abstracted: the rpc oracle maps the sample list given to the RPC write
to None (success) or to the text of the exception the write raised
(covering both a failed post and a server-reported err in the response
meta); the surrounding try converts any exception into a failed
result. -/
def write_samples (rpc : List HistorySample → Option String)
    (samples : List HistorySample) : HistoryWriteResult :=
  if samples.isEmpty then ⟨true, 0, none⟩
  else
    match rpc samples with
    | some e => ⟨false, 0, some e⟩
    | none => ⟨true, samples.length, none⟩

/-- Model of HistoryOperations.write_samples_chunked: group and sort
the samples, split them into chunks, run write_samples on every chunk,
and collect one result per chunk in chunk-index order (asyncio.gather
returns results in the order of its arguments; the conversion loop
keeps that order, turning a raised exception into a failed result,
which write_samples already does itself). -/
def write_samples_chunked (rpc : List HistorySample → Option String)
    (chunk_size : Nat) (samples : List HistorySample) : List HistoryWriteResult :=
  if samples.isEmpty then []
  else (chunkList chunk_size (sortSamples samples)).map (write_samples rpc)

/-! ## Retry policy and session manager (http/retry.py, http/session.py) -/

/-- Model of the exception kinds that can cross the retry boundary:
httpx network errors and timeouts, asyncio timeouts, httpx status
errors, and the library exception classes raised by the session and
operations code. -/
inductive Exn where
  | requestError
  | asyncioTimeout
  | httpStatusError : Nat → Exn
  | serverError : String → Exn
  | historyWriteError : String → Exn
  | authenticationError : String → Exn
  | jsonDecodeError
  | otherError : String → Exn
deriving DecidableEq, Repr

/-- Model of RetryPolicy.is_retryable_exception: httpx request errors
and timeouts and asyncio timeouts are retryable, as is an
httpx.HTTPStatusError whose status is 5xx; everything else is not. -/
def is_retryable_exception : Exn → Bool
  | .requestError => true
  | .asyncioTimeout => true
  | .httpStatusError status => 500 ≤ status && status < 600
  | _ => false

/-- Model of the tenacity AsyncRetrying loop of RetryPolicy.execute,
with the attempt count made explicit: the first argument is the number
of retries still allowed (max_retries at the top call, so max_retries
plus one attempts in total), the op oracle gives the outcome of each
attempt by index, and the second component of the result counts the
attempts made. A retryable failure with retries left triggers another
attempt; any other failure, or exhaustion, reraises at once. -/
def retryRun (retryable : Exn → Bool) (op : Nat → Except Exn α) :
    Nat → Nat → Except Exn α × Nat
  | 0, i => (op i, 1)
  | n + 1, i =>
    match op i with
    | .ok a => (.ok a, 1)
    | .error e =>
      if retryable e then
        let r := retryRun retryable op n (i + 1)
        (r.1, r.2 + 1)
      else (.error e, 1)

/-- Model of RetryPolicy.execute for a policy with the given
max_retries, using the retryability classification of the source. -/
def RetryPolicy.execute (max_retries : Nat) (op : Nat → Except Exn α) : Except Exn α × Nat :=
  retryRun is_retryable_exception op max_retries 0

/-- Outcome of one transport call: a raised exception, or a response
with its HTTP status, its JSON body when the body parses as JSON, and
its raw text. -/
inductive PostOutcome where
  | exn : Exn → PostOutcome
  | resp : Nat → Option String → String → PostOutcome
deriving DecidableEq, Repr

/-- Body returned by a session operation: parsed JSON, or the raw text
wrapped in a text dict when the body of a 200 response is not JSON. -/
inductive RespBody where
  | json : String → RespBody
  | textWrapped : String → RespBody
deriving DecidableEq, Repr

/-- Model of the body of one post_zinc attempt (session.py): a
transport exception propagates; a non-200 status raises ServerError; a
200 response is returned as JSON, falling back to the text wrapper. -/
def post_zinc_attempt_outcome : PostOutcome → Except Exn RespBody
  | .exn e => .error e
  | .resp status json text =>
    if status ≠ 200 then
      .error (.serverError ("Request failed with status " ++ toString status))
    else
      match json with
      | some j => .ok (.json j)
      | none => .ok (.textWrapped text)

/-- Model of SessionManager.post_zinc: the inner attempt wrapped in
RetryPolicy.execute, with the transport given per attempt index and
the attempt count reported. -/
def session_post_zinc (max_retries : Nat) (transport : Nat → PostOutcome) :
    Except Exn RespBody × Nat :=
  RetryPolicy.execute max_retries (fun i => post_zinc_attempt_outcome (transport i))

/-! ## Request headers (session.py) -/

/-- Model of SessionManager.get_headers: Content-Type and Accept
always; Authorization only when the cached token is truthy (neither
None nor empty). -/
def get_headers (token : Option String) (content_type : String) : List (String × String) :=
  let headers := [("Content-Type", content_type), ("Accept", "application/json")]
  match token with
  | none => headers
  | some t => if t = "" then headers else headers ++ [("Authorization", "Bearer authToken=" ++ t)]

/-- Drop the leading slashes of the endpoint (Python lstrip). -/
def lstripSlash (s : String) : String := String.mk (s.data.dropWhile (fun c => c = '/'))

/-- Model of SessionManager.build_url (the base url is stored already
right-stripped of slashes by the constructor). -/
def build_url (base_url project endpoint : String) : String :=
  base_url ++ "/" ++ project ++ "/" ++ lstripSlash endpoint

/-- One issued HTTP request of the session model. -/
structure IssuedRequest where
  url : String
  headers : List (String × String)
  body : String
deriving DecidableEq, Repr

/-- Model of one post_zinc attempt including the request it issues:
the headers are built from the cached token, the request is always
posted (header construction never raises), and the response is handled
as in post_zinc_attempt_outcome. -/
def post_zinc_request (token : Option String) (base_url project endpoint zinc_data : String)
    (transport : IssuedRequest → PostOutcome) : IssuedRequest × Except Exn RespBody :=
  let req : IssuedRequest :=
    ⟨build_url base_url project endpoint, get_headers token "text/zinc", zinc_data⟩
  (req, post_zinc_attempt_outcome (transport req))

/-! ## SCRAM authenticator (auth/authenticator.py) -/

/-- The three request phases of the handshake. -/
inductive Phase where
  | hello
  | clientFirst
  | clientFinal
deriving DecidableEq, Repr

/-- Response of one handshake request: HTTP status and the two headers
the authenticator reads (an absent header is None; an empty header is
falsy in Python and treated like an absent one by the source). -/
structure HttpResp where
  status : Nat
  wwwAuth : Option String
  authInfo : Option String

/-- External collaborators of the authenticator: base64url decoding
(after padding restoration; None models a raised ValueError) and the
SCRAM messages produced by the scramp client. -/
structure ScramExt where
  b64decode : String → Option String
  clientFirstMsg : String
  clientFinalMsg : String

/-- Strip the optional scram prefix of a challenge header, matched
case-insensitively as in the source. -/
def stripScram (s : String) : String :=
  if s.toLower.startsWith "scram " then s.drop 6 else s

/-- Model of part.split(sep-equals, 1) with optional strip: a part
without an equals sign makes the surrounding dict() raise ValueError,
modelled as None. -/
def parsePair (stripParts : Bool) (part : String) : Option (String × String) :=
  let t := if stripParts then part.trim else part
  match t.splitOn "=" with
  | [] => none
  | [_] => none
  | k :: rest => some (k, String.intercalate "=" rest)

/-- Model of dict(part.split for part in s.split(sep)). -/
def parsePairs (stripParts : Bool) (sep : String) (s : String) : Option (List (String × String)) :=
  (s.splitOn sep).mapM (parsePair stripParts)

/-- Python dict lookup with default empty string; a repeated key keeps
its last value. -/
def dictGetS (l : List (String × String)) (k : String) : String :=
  match l.reverse.lookup k with
  | some v => v
  | none => ""

/-- Base64url padding restoration of the source: append 4 - len mod 4
equals signs. -/
def padOf (d : String) : String :=
  String.mk (List.replicate (4 - d.length % 4) '=')

/-- Model of ScramAuthenticator.hello: accept status 200 or 401,
require a WWW-Authenticate header, parse it as comma-separated
key-value pairs after stripping the scram prefix, and require a
nonempty handshakeToken. -/
def helloStep (resp : HttpResp) : Except String String :=
  if resp.status ≠ 200 ∧ resp.status ≠ 401 then
    .error ("HELLO failed with status " ++ toString resp.status)
  else
    match resp.wwwAuth with
    | none => .error "No www-authenticate header in HELLO response"
    | some www =>
      if www = "" then .error "No www-authenticate header in HELLO response"
      else
        match parsePairs true "," (stripScram www) with
        | none => .error ("Failed to parse handshakeToken from: " ++ www)
        | some ps =>
          let tok := dictGetS ps "handshakeToken"
          if tok = "" then .error ("No handshakeToken in HELLO response: " ++ www)
          else .ok tok

/-- Model of ScramAuthenticator.client_first: require status exactly
401, require a WWW-Authenticate header, parse the new handshake token
and the base64url data field, and decode the server-first message. -/
def clientFirstStep (ext : ScramExt) (resp : HttpResp) : Except String (String × String) :=
  if resp.status ≠ 401 then
    .error ("CLIENT-FIRST failed with status " ++ toString resp.status)
  else
    match resp.wwwAuth with
    | none => .error "No www-authenticate header in CLIENT-FIRST response"
    | some www =>
      if www = "" then .error "No www-authenticate header in CLIENT-FIRST response"
      else
        match parsePairs true "," (stripScram www) with
        | none => .error ("Failed to parse CLIENT-FIRST response: " ++ www)
        | some ps =>
          let newTok := dictGetS ps "handshakeToken"
          let data := dictGetS ps "data"
          match ext.b64decode (data ++ padOf data) with
          | none => .error ("Failed to parse CLIENT-FIRST response: " ++ www)
          | some serverFirst => .ok (newTok, serverFirst)

/-- Model of ScramAuthenticator.client_final: require status exactly
200, require an Authentication-Info header, parse it as comma-space
separated key-value pairs, decode the server-final data, and return
the authToken. -/
def clientFinalStep (ext : ScramExt) (resp : HttpResp) : Except String String :=
  if resp.status ≠ 200 then
    .error ("CLIENT-FINAL failed with status " ++ toString resp.status)
  else
    match resp.authInfo with
    | none => .error "No authentication-info header in CLIENT-FINAL response"
    | some ai =>
      if ai = "" then .error "No authentication-info header in CLIENT-FINAL response"
      else
        match parsePairs false ", " ai with
        | none => .error ("Failed to parse CLIENT-FINAL response: " ++ ai)
        | some ps =>
          let tok := dictGetS ps "authToken"
          let data := dictGetS ps "data"
          match ext.b64decode (data ++ padOf data) with
          | none => .error ("Failed to parse CLIENT-FINAL response: " ++ ai)
          | some _ => .ok tok

/-- Model of ScramAuthenticator.authenticate: the three phases run in
order, each request recorded in the returned trace; the first failing
phase stops the handshake and its error is wrapped by the outer except
into an AuthenticationError message. -/
def authenticate (ext : ScramExt) (transport : Phase → HttpResp) :
    Except String String × List Phase :=
  match helloStep (transport .hello) with
  | .error e => (.error ("SCRAM authentication failed: " ++ e), [.hello])
  | .ok _tok1 =>
    match clientFirstStep ext (transport .clientFirst) with
    | .error e => (.error ("SCRAM authentication failed: " ++ e), [.hello, .clientFirst])
    | .ok _st =>
      match clientFinalStep ext (transport .clientFinal) with
      | .error e =>
        (.error ("SCRAM authentication failed: " ++ e), [.hello, .clientFirst, .clientFinal])
      | .ok authTok => (.ok authTok, [.hello, .clientFirst, .clientFinal])

/-! ## Zinc datetime decoding (models/entities.py, parse_zinc_datetime) -/

/-- Wire datetime dict: the val text and the tz field (None when the
key is absent, in which case dict.get supplies the UTC default). -/
structure ZincDTDict where
  val : String
  tz : Option String
deriving DecidableEq, Repr

/-- Zone finally attached to the parsed datetime: a named zone from
pytz, or the offset zone kept from dateutil parsing when the zone name
is not a valid pytz name. -/
inductive AttachedTz where
  | named : String → AttachedTz
  | fromOffset : AttachedTz
deriving DecidableEq, Repr

/-- Python str.split(space): split at every single space, keeping
empty fields. -/
def splitOnSpace : List Char → List (List Char)
  | [] => [[]]
  | c :: rest =>
    let r := splitOnSpace rest
    if c = ' ' then [] :: r
    else (c :: r.headD []) :: r.tail

/-- Model of parse_zinc_datetime from models/entities.py: take tz with
default UTC; when val contains a space, keep only the part before the
first space and use the trailing part as zone name only when tz_name
is falsy; then localize to the named zone when pytz recognizes it
(validTz oracle), else keep the parsed offset zone. The result is the
datetime text handed to dateutil and the zone attached to it. -/
def parse_zinc_datetime (validTz : String → Bool) (v : ZincDTDict) : String × AttachedTz :=
  let tz_name := v.tz.getD "UTC"
  let st :=
    if ' ' ∈ v.val.data then
      let parts := (splitOnSpace v.val.data).map String.mk
      (parts.headD "",
       if parts.length > 1 && tz_name == "" then parts.getD 1 "" else tz_name)
    else (v.val, tz_name)
  if validTz st.2 then (st.1, .named st.2) else (st.1, .fromOffset)

/-! ## Concrete fixtures used by witness statements -/

/-- Sample of point a at time 0. -/
def sampleA : HistorySample := ⟨"a", 0, "2025-01-01T00:00:00+00:00", some "UTC", .float "1.0"⟩

/-- Later sample of point a. -/
def sampleA2 : HistorySample := ⟨"a", 5, "2025-01-01T00:00:05+00:00", some "UTC", .float "3.0"⟩

/-- Sample of point b at time 1. -/
def sampleB : HistorySample := ⟨"b", 1, "2025-01-01T00:00:01+00:00", some "UTC", .float "2.0"⟩

/-- Transport oracle failing exactly on the single-sample chunk of
point a. -/
def rpcFailOnA : List HistorySample → Option String
  | [s] => if s.point_id = "a" then some "boom" else none
  | _ => none

/-- Handshake externals for fixtures: decoding always succeeds. -/
def extOk : ScramExt := ⟨fun _ => some "", "cf", "cl"⟩

/-- Transport whose HELLO response has no WWW-Authenticate header. -/
def helloNoHeader : Phase → HttpResp := fun _ => ⟨200, none, none⟩

/-- Transport whose HELLO succeeds but whose CLIENT-FIRST response has
status 200 instead of 401. -/
def firstBadStatus : Phase → HttpResp
  | .hello => ⟨401, some "scram handshakeToken=abc", none⟩
  | _ => ⟨200, some "scram handshakeToken=def, data=AAAA", none⟩

/-- Transport always answering 200 with a JSON body. -/
def transport200 : IssuedRequest → PostOutcome := fun _ => .resp 200 (some "ok") ""

/-- Point without an id (update encoding must fail). -/
def badPoint : Point :=
  ⟨none, "P1", "p1", "s1", "e1", "Number", "UTC", none, false, false, false, ["sensor"], []⟩

/-- Point with an id. -/
def goodPoint : Point :=
  ⟨some "p:demo:r:1", "P2", "p2", "s1", "e1", "Number", "UTC", none, false, false, false,
    ["sensor"], []⟩

end AceSkyspark

namespace AceSkyspark

/-! ## Helper lemmas -/

theorem replaceChar_append (a : Char) (r : List Char) (x y : List Char) :
    replaceChar a r (x ++ y) = replaceChar a r x ++ replaceChar a r y := by
  simp [replaceChar]

theorem escape_append (x y : List Char) :
    escape_zinc_string (x ++ y) = escape_zinc_string x ++ escape_zinc_string y := by
  simp [escape_zinc_string, replaceChar_append, List.filter_append]

theorem unescape_esc (d : Char) (t : List Char) :
    unescapeZinc ('\\' :: d :: t) = decodeEsc d :: unescapeZinc t := by
  simp [unescapeZinc]

theorem unescape_plain (c : Char) (t : List Char) (hc : ¬ c = '\\') :
    unescapeZinc (c :: t) = c :: unescapeZinc t := by
  cases t with
  | nil => simp [unescapeZinc]
  | cons d rest => simp [unescapeZinc, hc]

theorem filter_keep {c : Char} (h : zincKeep c = true) (s : List Char) :
    List.filter zincKeep (c :: s) = c :: List.filter zincKeep s := by
  simp [List.filter_cons, h]

theorem filter_drop {c : Char} (h : zincKeep c = false) (s : List Char) :
    List.filter zincKeep (c :: s) = List.filter zincKeep s := by
  simp [List.filter_cons, h]

/-- Claim C2: for every input string, reversing the escape sequences
in the output of the Zinc string escaping function recovers the
original string with every NUL byte and every other control character
below code point 32 (except tab, newline, carriage return) deleted,
and nothing else altered. -/
theorem zinc_escape_roundtrip (s : List Char) :
    unescapeZinc (escape_zinc_string s) = s.filter zincKeep := by
  induction s with
  | nil => rfl
  | cons c s ih =>
    have hsplit : escape_zinc_string (c :: s) = escape_zinc_string [c] ++ escape_zinc_string s :=
      escape_append [c] s
    rw [hsplit]
    by_cases h1 : c = '\\'
    · subst h1
      rw [show escape_zinc_string ['\\'] = ['\\', '\\'] from by decide]
      rw [List.cons_append, List.cons_append, List.nil_append, unescape_esc,
        show decodeEsc '\\' = '\\' from by decide, filter_keep (by decide), ih]
    · by_cases h2 : c = '"'
      · subst h2
        rw [show escape_zinc_string ['"'] = ['\\', '"'] from by decide]
        rw [List.cons_append, List.cons_append, List.nil_append, unescape_esc,
          show decodeEsc '"' = '"' from by decide, filter_keep (by decide), ih]
      · by_cases h3 : c = '\n'
        · subst h3
          rw [show escape_zinc_string ['\n'] = ['\\', 'n'] from by decide]
          rw [List.cons_append, List.cons_append, List.nil_append, unescape_esc,
            show decodeEsc 'n' = '\n' from by decide, filter_keep (by decide), ih]
        · by_cases h4 : c = '\r'
          · subst h4
            rw [show escape_zinc_string ['\r'] = ['\\', 'r'] from by decide]
            rw [List.cons_append, List.cons_append, List.nil_append, unescape_esc,
              show decodeEsc 'r' = '\r' from by decide, filter_keep (by decide), ih]
          · by_cases h5 : c = '\t'
            · subst h5
              rw [show escape_zinc_string ['\t'] = ['\\', 't'] from by decide]
              rw [List.cons_append, List.cons_append, List.nil_append, unescape_esc,
                show decodeEsc 't' = '\t' from by decide, filter_keep (by decide), ih]
            · have hesc : escape_zinc_string [c] = if zincKeep c then [c] else [] := by
                simp [escape_zinc_string, replaceChar, h1, h2, h3, h4, h5]
                by_cases h0 : c = Char.ofNat 0
                · subst h0
                  simp [List.filter_cons, show zincKeep (Char.ofNat 0) = false from by decide]
                · simp [h0, List.filter_cons]
              rw [hesc]
              by_cases hk : zincKeep c
              · rw [if_pos hk, List.cons_append, List.nil_append,
                  unescape_plain c _ h1, ih, filter_keep hk]
              · rw [if_neg hk, List.nil_append, ih,
                  filter_drop (Bool.not_eq_true _ ▸ (by simpa using hk)) ]

/-- Claim C8: the single-value encoder applies the priority order of
the spec: empty string to empty cell, marker sentinel to M, a string
beginning with the ref sigil passed through unchanged and unescaped,
any other string escaped and wrapped in double quotes, a boolean to T
or F, an int or float to its decimal text, a zoned datetime to its
iso text, a literal space, and the zone name, and any other value
stringified, escaped and quoted. -/
theorem encode_value_priority :
    encode_value (.str "") = "" ∧
    encode_value (.str "m:") = "M" ∧
    (∀ s : String, startsWithAt s = true → encode_value (.str s) = s) ∧
    (∀ s : String, s ≠ "" → s ≠ "m:" → startsWithAt s = false →
      encode_value (.str s) = "\"" ++ escapeStr s ++ "\"") ∧
    (∀ b : Bool, encode_value (.bool b) = if b then "T" else "F") ∧
    (∀ n : Int, encode_value (.int n) = toString n) ∧
    (∀ r : String, encode_value (.float r) = r) ∧
    (∀ iso z : String, encode_value (.datetime iso (some z)) = iso ++ " " ++ z) ∧
    (∀ r : String, encode_value (.other r) = "\"" ++ escapeStr r ++ "\"") := by
  refine ⟨rfl, rfl, ?_, ?_, fun b => rfl, fun n => rfl, fun r => rfl,
    fun iso z => rfl, fun r => rfl⟩
  · intro s h
    have hne : s ≠ "" := by
      intro he
      subst he
      exact absurd h (by decide)
    have hnm : s ≠ "m:" := by
      intro he
      subst he
      exact absurd h (by decide)
    simp [encode_value, hne, hnm, h]
  · intro s h1 h2 h3
    simp [encode_value, h1, h2, h3]

/-- Claim C8 witness: each clause of the priority theorem applied at a
concrete input. -/
theorem encode_value_priority_witness :
    encode_value (.str "@p:1") = "@p:1" ∧
    encode_value (.str "ab") = "\"" ++ escapeStr "ab" ++ "\"" ∧
    encode_value (.bool true) = (if true then "T" else "F") ∧
    encode_value (.int 7) = toString (7 : Int) ∧
    encode_value (.float "1.5") = "1.5" ∧
    encode_value (.datetime "2025-10-30T18:30:00-04:00" (some "New_York"))
      = "2025-10-30T18:30:00-04:00" ++ " " ++ "New_York" ∧
    encode_value (.other "x") = "\"" ++ escapeStr "x" ++ "\"" :=
  ⟨encode_value_priority.2.2.1 "@p:1" (by decide),
   encode_value_priority.2.2.2.1 "ab" (by decide) (by decide) (by decide),
   encode_value_priority.2.2.2.2.1 true,
   encode_value_priority.2.2.2.2.2.1 7,
   encode_value_priority.2.2.2.2.2.2.1 "1.5",
   encode_value_priority.2.2.2.2.2.2.2.1 "2025-10-30T18:30:00-04:00" "New_York",
   encode_value_priority.2.2.2.2.2.2.2.2 "x"⟩

theorem mapM_update_row_ok (tags : List String) :
    ∀ pts : List Point, (∀ p ∈ pts, optStrTruthy p.id) →
      pts.mapM (update_row tags) = .ok (pts.map (fun p => encodeRow tags p.to_zinc_dict)) := by
  intro pts h
  induction pts with
  | nil => rfl
  | cons p ps ih =>
    have hp : optStrTruthy p.id := h p (List.mem_cons_self p ps)
    have hps := ih (fun q hq => h q (List.mem_cons_of_mem p hq))
    rw [List.mapM_cons, hps]
    simp [update_row, hp]
    rfl

theorem mapM_update_row_err (tags : List String) :
    ∀ pts : List Point, (∃ p ∈ pts, ¬ optStrTruthy p.id) →
      ∃ m, pts.mapM (update_row tags) = .error m := by
  intro pts h
  induction pts with
  | nil =>
    obtain ⟨p, hp, _⟩ := h
    cases hp
  | cons q ps ih =>
    by_cases hq : optStrTruthy q.id
    · obtain ⟨p, hp, hnp⟩ := h
      have hpps : p ∈ ps := by
        rcases List.mem_cons.mp hp with h1 | h1
        · subst h1
          exact absurd hq hnp
        · exact h1
      obtain ⟨m, hm⟩ := ih ⟨p, hpps, hnp⟩
      refine ⟨m, ?_⟩
      rw [List.mapM_cons, hm]
      simp [update_row, hq]
      rfl
    · refine ⟨"Point " ++ q.dis ++ " must have an ID for update operations", ?_⟩
      rw [List.mapM_cons]
      simp [update_row, hq]
      rfl

/-- Claim C7: a point list in which some point lacks an identifier
makes encode_commit_update_points raise (no grid value is produced);
a list in which every point has an identifier yields a grid holding
exactly one encoded data row per point. -/
theorem encode_commit_update_points_spec (points : List Point) :
    ((∃ p ∈ points, ¬ optStrTruthy p.id) →
      ∃ m, encode_commit_update_points points = .error m) ∧
    (points ≠ [] → (∀ p ∈ points, optStrTruthy p.id) →
      ∃ rows, rows = points.map (fun p => encodeRow (updateTagSet points) p.to_zinc_dict) ∧
        rows.length = points.length ∧
        encode_commit_update_points points =
          .ok ("ver:\"3.0\" commit:\"update\"\n" ++
            String.intercalate ", " (updateTagSet points) ++ "\n" ++
            String.join (rows.map (fun r => r ++ "\n")))) := by
  have hbody : points ≠ [] →
      encode_commit_update_points points =
        (points.mapM (update_row (updateTagSet points))).map
          (fun rows =>
            "ver:\"3.0\" commit:\"update\"\n" ++
              String.intercalate ", " (updateTagSet points) ++ "\n" ++
              String.join (rows.map (fun r => r ++ "\n"))) := by
    intro hne
    have hemp : points.isEmpty = false := by
      cases points with
      | nil => exact absurd rfl hne
      | cons a l => rfl
    unfold encode_commit_update_points
    rw [hemp]
    simp only [Bool.false_eq_true, if_false]
  constructor
  · rintro ⟨p, hp, hnp⟩
    have hne : points ≠ [] := by
      intro h
      subst h
      cases hp
    obtain ⟨m, hm⟩ := mapM_update_row_err (updateTagSet points) points ⟨p, hp, hnp⟩
    refine ⟨m, ?_⟩
    rw [hbody hne, hm]
    rfl
  · intro hne hall
    have hm := mapM_update_row_ok (updateTagSet points) points hall
    refine ⟨points.map (fun p => encodeRow (updateTagSet points) p.to_zinc_dict), ?_, ?_, ?_⟩
    · rfl
    · exact List.length_map points _
    · rw [hbody hne, hm]
      exact rfl

/-- Claim C7 witness: the theorem applied to a one-point list without
an id and to a one-point list with an id. -/
theorem encode_commit_update_points_spec_witness :
    (∃ m, encode_commit_update_points [badPoint] = .error m) ∧
    (∃ rows, rows = [goodPoint].map
        (fun p => encodeRow (updateTagSet [goodPoint]) p.to_zinc_dict) ∧
      rows.length = [goodPoint].length ∧
      encode_commit_update_points [goodPoint] =
        .ok ("ver:\"3.0\" commit:\"update\"\n" ++
          String.intercalate ", " (updateTagSet [goodPoint]) ++ "\n" ++
          String.join (rows.map (fun r => r ++ "\n")))) :=
  ⟨(encode_commit_update_points_spec [badPoint]).1
      ⟨badPoint, List.mem_cons_self badPoint [], by decide⟩,
   (encode_commit_update_points_spec [goodPoint]).2 (by decide)
      (fun p hp => by
        rcases List.mem_cons.mp hp with h | h
        · subst h
          decide
        · cases h)⟩

theorem chunkList_nil (n : Nat) : chunkList n ([] : List α) = [] := by
  unfold chunkList
  by_cases h : n = 0
  · rw [if_pos h]
  · rw [if_neg h]
    rfl

theorem chunkListAux_ne_nil (n : Nat) (hn : n ≠ 0) :
    ∀ (fuel : Nat) (l : List α), ∀ c ∈ chunkListAux n fuel l, c ≠ [] := by
  intro fuel
  induction fuel with
  | zero =>
    intro l c hc
    cases hc
  | succ f ih =>
    intro l c hc
    cases l with
    | nil => cases hc
    | cons x xs =>
      rcases List.mem_cons.mp hc with h | h
      · subst h
        cases n with
        | zero => exact absurd rfl hn
        | succ m => simp [List.take]
      · exact ih _ c h

theorem chunkList_mem_ne_nil (n : Nat) (l : List α) : ∀ c ∈ chunkList n l, c ≠ [] := by
  intro c hc
  unfold chunkList at hc
  by_cases h : n = 0
  · rw [if_pos h] at hc
    cases hc
  · rw [if_neg h] at hc
    exact chunkListAux_ne_nil n h _ l c hc

theorem chunkListAux_flatten (n : Nat) (hn : 0 < n) :
    ∀ (fuel : Nat) (l : List α), l.length ≤ fuel → (chunkListAux n fuel l).flatten = l := by
  intro fuel
  induction fuel with
  | zero =>
    intro l hl
    have : l = [] := List.eq_nil_of_length_eq_zero (Nat.le_zero.mp hl)
    subst this
    rfl
  | succ f ih =>
    intro l hl
    cases l with
    | nil => rfl
    | cons x xs =>
      have hdrop : ((x :: xs).drop n).length ≤ f := by
        rw [List.length_drop]
        simp only [List.length_cons] at hl ⊢
        omega
      calc (chunkListAux n (f + 1) (x :: xs)).flatten
          = (x :: xs).take n ++ (chunkListAux n f ((x :: xs).drop n)).flatten := by
            rw [show chunkListAux n (f + 1) (x :: xs)
                = ((x :: xs).take n) :: chunkListAux n f ((x :: xs).drop n) from rfl,
              List.flatten_cons]
        _ = (x :: xs).take n ++ (x :: xs).drop n := by rw [ih _ hdrop]
        _ = x :: xs := List.take_append_drop n (x :: xs)

theorem chunkList_flatten (n : Nat) (hn : 0 < n) (l : List α) :
    (chunkList n l).flatten = l := by
  unfold chunkList
  rw [if_neg (Nat.pos_iff_ne_zero.mp hn)]
  exact chunkListAux_flatten n hn _ l le_rfl

theorem getD_map_of_lt {α β : Type} {f : α → β} {l : List α} {k : Nat}
    (h : k < l.length) (d : β) (d0 : α) : (l.map f).getD k d = f (l.getD k d0) := by
  rw [List.getD_eq_getElem?_getD, List.getD_eq_getElem?_getD, List.getElem?_map,
    List.getElem?_eq_getElem h]
  rfl

theorem getD_mem_of_lt {α : Type} {l : List α} {k : Nat} (h : k < l.length) (d : α) :
    l.getD k d ∈ l := by
  rw [List.getD_eq_getElem?_getD, List.getElem?_eq_getElem h]
  exact List.getElem_mem h

/-- Claim C3: write_samples_chunked returns one result per chunk in
chunk-index order; when the rpc write fails exactly on chunk k, result
k is unsuccessful with zero samples written and an error message,
while every other chunk keeps its own successful result with its own
sample count, and no sibling chunk loses its result. -/
theorem write_samples_chunked_isolation
    (rpc : List HistorySample → Option String) (cs : Nat) (samples : List HistorySample)
    (k : Nat) (e : String)
    (hk : k < (chunkList cs (sortSamples samples)).length)
    (hfail : rpc ((chunkList cs (sortSamples samples)).getD k []) = some e)
    (hok : ∀ j, j < (chunkList cs (sortSamples samples)).length → j ≠ k →
      rpc ((chunkList cs (sortSamples samples)).getD j []) = none) :
    (write_samples_chunked rpc cs samples).length
        = (chunkList cs (sortSamples samples)).length ∧
    (write_samples_chunked rpc cs samples).getD k ⟨true, 0, none⟩ = ⟨false, 0, some e⟩ ∧
    (∀ j, j < (chunkList cs (sortSamples samples)).length → j ≠ k →
      (write_samples_chunked rpc cs samples).getD j ⟨true, 0, none⟩ =
        ⟨true, ((chunkList cs (sortSamples samples)).getD j []).length, none⟩) := by
  have hne : samples.isEmpty = false := by
    cases hs : samples.isEmpty
    · rfl
    · have : samples = [] := List.isEmpty_iff.mp hs
      rw [this] at hk
      rw [show sortSamples [] = [] from rfl, chunkList_nil] at hk
      cases hk
  have hw : write_samples_chunked rpc cs samples
      = (chunkList cs (sortSamples samples)).map (write_samples rpc) := by
    unfold write_samples_chunked
    rw [hne]
    simp only [Bool.false_eq_true, if_false]
  have hchunk : ∀ j, j < (chunkList cs (sortSamples samples)).length →
      ((chunkList cs (sortSamples samples)).getD j []).isEmpty = false := by
    intro j hj
    have hmem := getD_mem_of_lt hj ([] : List HistorySample)
    have hne2 := chunkList_mem_ne_nil cs (sortSamples samples) _ hmem
    cases hc : ((chunkList cs (sortSamples samples)).getD j []).isEmpty
    · rfl
    · exact absurd (List.isEmpty_iff.mp hc) hne2
  refine ⟨by rw [hw]; exact List.length_map _ _, ?_, ?_⟩
  · rw [hw, getD_map_of_lt hk _ []]
    unfold write_samples
    rw [hchunk k hk]
    simp only [Bool.false_eq_true, if_false, hfail]
  · intro j hj hjk
    rw [hw, getD_map_of_lt hj _ []]
    unfold write_samples
    rw [hchunk j hj]
    simp only [Bool.false_eq_true, if_false, hok j hj hjk]

/-- Claim C3 witness: two one-sample chunks, the rpc failing exactly
on the chunk of point a; the result of chunk 0 is the converted
failure. -/
theorem write_samples_chunked_isolation_witness :
    (write_samples_chunked rpcFailOnA 1 [sampleA, sampleB]).getD 0 ⟨true, 0, none⟩
      = ⟨false, 0, some "boom"⟩ :=
  (write_samples_chunked_isolation rpcFailOnA 1 [sampleA, sampleB] 0 "boom"
    (by decide) (by decide) (by decide)).2.1

theorem mem_pointKeys (p : String) :
    ∀ samples : List HistorySample, p ∈ pointKeys samples ↔ ∃ s ∈ samples, s.point_id = p := by
  intro samples
  induction samples with
  | nil => simp [pointKeys]
  | cons s rest ih =>
    by_cases hp : p = s.point_id
    · subst hp
      simp [pointKeys]
    · simp only [pointKeys, List.mem_cons, List.mem_filter]
      constructor
      · rintro (h | ⟨h1, _⟩)
        · exact absurd h hp
        · obtain ⟨x, hx, hxp⟩ := ih.mp h1
          exact ⟨x, Or.inr hx, hxp⟩
      · rintro ⟨x, hx, hxp⟩
        rcases hx with hx | hx
        · subst hx
          exact absurd hxp.symm hp
        · refine Or.inr ⟨ih.mpr ⟨x, hx, hxp⟩, ?_⟩
          simp [hp]

theorem pointKeys_nodup : ∀ samples : List HistorySample, (pointKeys samples).Nodup := by
  intro samples
  induction samples with
  | nil => exact List.nodup_nil
  | cons s rest ih =>
    rw [pointKeys, List.nodup_cons]
    constructor
    · intro h
      have := (List.mem_filter.mp h).2
      simp at this
    · exact List.Nodup.filter _ ih

theorem insertionSort_point_id (p : String) (samples : List HistorySample) :
    ∀ x ∈ List.insertionSort tsLe (samples.filter (fun s => s.point_id == p)),
      x.point_id = p := by
  intro x hx
  have hmem : x ∈ samples.filter (fun s => s.point_id == p) :=
    (List.perm_insertionSort tsLe _).mem_iff.mp hx
  have := (List.mem_filter.mp hmem).2
  simpa using this

theorem flatMap_filter_single (p : String) (g : String → List HistorySample)
    (hg : ∀ q, ∀ x ∈ g q, x.point_id = q) :
    ∀ keys : List String, keys.Nodup →
      keys.flatMap (fun q => (g q).filter (fun s => s.point_id == p))
        = if p ∈ keys then g p else [] := by
  intro keys hnd
  induction keys with
  | nil => simp
  | cons q ks ih =>
    have hq : q ∉ ks := (List.nodup_cons.mp hnd).1
    have hnd2 : ks.Nodup := (List.nodup_cons.mp hnd).2
    rw [List.flatMap_cons, ih hnd2]
    by_cases hpq : q = p
    · subst hpq
      have h1 : (g q).filter (fun s => s.point_id == q) = g q :=
        List.filter_eq_self.mpr (fun x hx => by simp [hg q x hx])
      rw [h1, if_neg hq, if_pos (List.mem_cons_self q ks)]
      exact List.append_nil _
    · have h1 : (g q).filter (fun s => s.point_id == p) = [] :=
        List.filter_eq_nil_iff.mpr (fun x hx => by simp [hg q x hx, hpq])
      rw [h1, List.nil_append]
      have hpq2 : ¬ p = q := fun h => hpq h.symm
      by_cases hpk : p ∈ ks
      · rw [if_pos hpk, if_pos (List.mem_cons_of_mem q hpk)]
      · rw [if_neg hpk, if_neg (by
          intro h
          rcases List.mem_cons.mp h with h | h
          · exact hpq2 h
          · exact hpk h)]

theorem sortSamples_filter (samples : List HistorySample) (p : String) :
    (sortSamples samples).filter (fun s => s.point_id == p)
      = List.insertionSort tsLe (samples.filter (fun s => s.point_id == p)) := by
  unfold sortSamples
  rw [List.filter_flatMap]
  rw [flatMap_filter_single p
    (fun q => List.insertionSort tsLe (samples.filter (fun s => s.point_id == q)))
    (fun q => insertionSort_point_id q samples) (pointKeys samples) (pointKeys_nodup samples)]
  by_cases hp : p ∈ pointKeys samples
  · rw [if_pos hp]
  · rw [if_neg hp]
    have hnone : samples.filter (fun s => s.point_id == p) = [] := by
      refine List.filter_eq_nil_iff.mpr (fun x hx => ?_)
      intro hxp
      exact hp ((mem_pointKeys p samples).mpr ⟨x, hx, by simpa using hxp⟩)
    rw [hnone]
    rfl

/-- Claim C4: for every input sample list, chunk size and point id,
the concatenation in chunk order of the chunks handed to
write_samples, restricted to that point, is sorted by nondecreasing
timestamp and is a permutation of that point's input samples. -/
theorem chunk_concat_per_point_order (samples : List HistorySample) (cs : Nat) (p : String)
    (hcs : 0 < cs) :
    List.Sorted tsLe
      ((chunkList cs (sortSamples samples)).flatten.filter (fun s => s.point_id == p)) ∧
    ((chunkList cs (sortSamples samples)).flatten.filter (fun s => s.point_id == p)).Perm
      (samples.filter (fun s => s.point_id == p)) := by
  rw [chunkList_flatten cs hcs, sortSamples_filter]
  exact ⟨List.sorted_insertionSort tsLe _, List.perm_insertionSort tsLe _⟩

/-- Claim C4 witness: three samples of two points in scrambled time
order, chunk size 2. -/
theorem chunk_concat_per_point_order_witness :
    List.Sorted tsLe
      ((chunkList 2 (sortSamples [sampleA2, sampleB, sampleA])).flatten.filter
        (fun s => s.point_id == "a")) ∧
    ((chunkList 2 (sortSamples [sampleA2, sampleB, sampleA])).flatten.filter
        (fun s => s.point_id == "a")).Perm
      ([sampleA2, sampleB, sampleA].filter (fun s => s.point_id == "a")) :=
  chunk_concat_per_point_order [sampleA2, sampleB, sampleA] 2 "a" (by decide)

/-- Claim C10: for the empty input list every grid encoder returns the
empty string, not a grid with a version or header line. -/
theorem encoders_empty_input :
    encode_commit_add_sites [] = "" ∧
    encode_commit_add_equipment [] = "" ∧
    encode_commit_add_points [] = "" ∧
    encode_commit_update_points [] = .ok "" ∧
    encode_his_write_rpc [] = "" :=
  ⟨rfl, rfl, rfl, rfl, rfl⟩

/-- Claim C1, failing-input evaluation: with max_retries 3, a
transport answering HTTP 500 on every attempt makes post_zinc perform
exactly one attempt and raise ServerError immediately, although the
retryability classifier marks an httpx 5xx status error as retryable
(the session converts every non-200 response into ServerError before
the classifier can see a status error, so 5xx is never retried); a
network error, by contrast, is retried to the attempt limit of four. -/
theorem post_zinc_500_not_retried :
    session_post_zinc 3 (fun _ => .resp 500 none "Internal") =
      (.error (.serverError "Request failed with status 500"), 1) ∧
    session_post_zinc 3 (fun _ => .exn .requestError) = (.error .requestError, 4) ∧
    is_retryable_exception (.httpStatusError 500) = true :=
  ⟨rfl, rfl, rfl⟩

/-- Claim C5, failing-input evaluation: for a wire datetime dict whose
val carries a trailing zone name and whose tz field is absent, the
decoder attaches UTC (the dict.get default makes tz_name truthy, so
the branch reading the trailing zone name never fires), not the
trailing zone name. -/
theorem parse_zinc_datetime_tz_absent_uses_utc :
    parse_zinc_datetime (fun _ => true) ⟨"2025-10-30T18:30:00-04:00 New_York", none⟩
      = ("2025-10-30T18:30:00-04:00", .named "UTC") ∧
    parse_zinc_datetime (fun _ => true) ⟨"2025-10-30T18:30:00-04:00 New_York", none⟩
      ≠ ("2025-10-30T18:30:00-04:00", .named "New_York") := by
  constructor
  · decide
  · decide

/-- Claim C6: authenticate raises whenever the HELLO response lacks a
WWW-Authenticate header, and then no CLIENT-FIRST request is issued;
it raises whenever the CLIENT-FIRST response status is not 401, and
then no CLIENT-FINAL request is issued. -/
theorem authenticate_phase_gating (ext : ScramExt) (t : Phase → HttpResp) :
    ((t .hello).wwwAuth = none →
      (∃ e, (authenticate ext t).1 = .error e) ∧ (authenticate ext t).2 = [Phase.hello]) ∧
    ((t .clientFirst).status ≠ 401 →
      (∃ e, (authenticate ext t).1 = .error e) ∧
        Phase.clientFinal ∉ (authenticate ext t).2) := by
  constructor
  · intro h
    have hh : ∃ e, helloStep (t .hello) = .error e := by
      unfold helloStep
      by_cases hs : (t .hello).status ≠ 200 ∧ (t .hello).status ≠ 401
      · rw [if_pos hs]
        exact ⟨_, rfl⟩
      · rw [if_neg hs, h]
        exact ⟨_, rfl⟩
    obtain ⟨e, he⟩ := hh
    unfold authenticate
    rw [he]
    exact ⟨⟨_, rfl⟩, rfl⟩
  · intro h
    unfold authenticate
    cases hh : helloStep (t .hello) with
    | error e =>
      refine ⟨⟨_, rfl⟩, ?_⟩
      show Phase.clientFinal ∉ [Phase.hello]
      decide
    | ok tok =>
      have hcf : ∃ e, clientFirstStep ext (t .clientFirst) = .error e := by
        unfold clientFirstStep
        rw [if_pos h]
        exact ⟨_, rfl⟩
      obtain ⟨e, he⟩ := hcf
      rw [he]
      refine ⟨⟨_, rfl⟩, ?_⟩
      show Phase.clientFinal ∉ [Phase.hello, Phase.clientFirst]
      decide

/-- Claim C6 witness: the theorem applied to a transport whose HELLO
response has no challenge header, and to a transport whose
CLIENT-FIRST response has status 200. -/
theorem authenticate_phase_gating_witness :
    ((∃ e, (authenticate extOk helloNoHeader).1 = .error e) ∧
      (authenticate extOk helloNoHeader).2 = [Phase.hello]) ∧
    ((∃ e, (authenticate extOk firstBadStatus).1 = .error e) ∧
      Phase.clientFinal ∉ (authenticate extOk firstBadStatus).2) :=
  ⟨(authenticate_phase_gating extOk helloNoHeader).1 rfl,
   (authenticate_phase_gating extOk firstBadStatus).2 (by decide)⟩

/-- Claim C9: with no cached token, the request headers hold exactly
Content-Type and Accept, no Authorization header at all, and the
request is still issued and handled normally instead of raising. -/
theorem post_zinc_no_token_headers (base_url project endpoint zinc_data : String)
    (transport : IssuedRequest → PostOutcome) :
    (post_zinc_request none base_url project endpoint zinc_data transport).1.headers
        = [("Content-Type", "text/zinc"), ("Accept", "application/json")] ∧
    "Authorization" ∉
      ((post_zinc_request none base_url project endpoint zinc_data transport).1.headers.map
        Prod.fst) ∧
    (∀ j text,
      transport (post_zinc_request none base_url project endpoint zinc_data transport).1
          = .resp 200 (some j) text →
      (post_zinc_request none base_url project endpoint zinc_data transport).2
          = .ok (.json j)) := by
  refine ⟨rfl, ?_, ?_⟩
  · show ("Authorization" : String) ∉ ["Content-Type", "Accept"]
    decide
  intro j text h
  show post_zinc_attempt_outcome
    (transport (post_zinc_request none base_url project endpoint zinc_data transport).1)
      = .ok (.json j)
  rw [h]
  rfl

/-- Claim C9 witness: the theorem applied to a transport answering 200
with a JSON body. -/
theorem post_zinc_no_token_headers_witness :
    (post_zinc_request none "http://server:8080/api" "demo" "commit" "grid" transport200).2
      = .ok (.json "ok") :=
  (post_zinc_no_token_headers "http://server:8080/api" "demo" "commit" "grid"
    transport200).2.2 "ok" "" rfl

